import Mathlib

/-!
Verification development for the session-scoped indicator registry of
`pkg/bbgo/session.go` (bbgo).

Shallow embedding: Go maps become association lists with a `lookup` that
returns the first binding and an `insert` that replaces an existing binding
in place or appends a fresh one (the observable behaviour of a Go map).
Go pointers become allocation identifiers (`id : Nat`), threaded through the
registry state by an allocation counter `nextId`; a nil pointer is `none`.
The side effect of `indicator.Bind(store)` is recorded as an event appended
to the `binds` log of the registry's store, so "bind count" is the length of
that log.  `float64` values are only stored and compared in this core (no
floating-point arithmetic happens), so they are modelled as rationals.
-/

set_option autoImplicit false
set_option linter.unusedSectionVars false

/-- Go `float64`.  In this core a float64 is only ever stored and compared
(band multipliers, prices); no arithmetic is performed on it, so we model it
as `ℚ`. -/
abbrev Float64 := ℚ

/-- Association-list lookup: first binding for the key, `none` if absent.
This is the value a Go map read `m[k]` observes. -/
def alookup {α β : Type} [DecidableEq α] : List (α × β) → α → Option β
  | [], _ => none
  | (k, v) :: rest, key => if k = key then some v else alookup rest key

/-- Association-list insert: a Go map write `m[k] = v` replaces the existing
binding in place, or appends a fresh one. -/
def ainsert {α β : Type} [DecidableEq α] : List (α × β) → α → β → List (α × β)
  | [], key, val => [(key, val)]
  | (k, v) :: rest, key, val =>
    if k = key then (key, val) :: rest else (k, v) :: ainsert rest key val

/-- Keys of an association list, in order. -/
def akeys {α β : Type} (m : List (α × β)) : List α := m.map Prod.fst

/-- Set-style insert on a list of symbols: Go `m[s] = struct{}{}` on a map
used as a set adds the symbol only if it is absent. -/
def sinsert (l : List String) (s : String) : List String :=
  if s ∈ l then l else l ++ [s]

namespace types

/-- Go `types.Interval` is a string type (such as "1m", "1h"). -/
abbrev Interval := String

/-- Go `types.Channel` is a string type (such as "kline"). -/
abbrev Channel := String

/-- IntervalWindow, the composite indicator-cache key. -/
structure IntervalWindow where
  Interval : Interval
  Window : Int
deriving DecidableEq

/-- Modelled from the spec: the `options: configuration bag` of a
subscription (Go `types.SubscribeOptions`, outside `src/`); only its
structural equality matters to this core. -/
structure SubscribeOptions where
  Interval : String
  Depth : String
deriving DecidableEq

/-- Subscription, the value-typed manifest key. -/
structure Subscription where
  Channel : Channel
  Symbol : String
  Options : SubscribeOptions
deriving DecidableEq

/-- Modelled from the spec: the `market configuration of a symbol`
(Go `types.Market`, outside `src/`); this core only stores and returns it. -/
structure Market where
  Symbol : String
deriving DecidableEq

/-- Modelled from the spec: an executed trade (Go `types.Trade`, outside
`src/`); this core only stores lists of them. -/
structure Trade where
  Symbol : String
deriving DecidableEq

/-- Exchange capability handle (external collaborator, opaque here). -/
abbrev Exchange := Unit

/-- Stream connection handle (external collaborator, opaque here). -/
abbrev Stream := Unit

/-- Account state (external collaborator, opaque here). -/
abbrev Account := Unit

end types

/-- Market data store of one symbol (external collaborator; this core only
holds a reference and binds indicators to it). -/
structure MarketDataStore where
  Symbol : String
deriving DecidableEq

namespace indicator

/-- SMA indicator instance.  `id` is the allocation identifier standing for
the Go pointer identity. -/
structure SMA where
  id : Nat
  IntervalWindow : types.IntervalWindow
deriving DecidableEq

/-- EWMA indicator instance. -/
structure EWMA where
  id : Nat
  IntervalWindow : types.IntervalWindow
deriving DecidableEq

/-- BOLL indicator instance; `K` is the standard-deviation multiplier. -/
structure BOLL where
  id : Nat
  IntervalWindow : types.IntervalWindow
  K : Float64
deriving DecidableEq

end indicator

/-- StandardIndicatorSet: per-symbol cache of indicator instances, one map
per family, plus the store every instance is bound to.  `nextId` is the
allocation counter and `binds` the log of bind events on `store` (one entry
per `Bind` call, holding the bound instance's id). -/
structure StandardIndicatorSet where
  Symbol : String
  SMA : List (types.IntervalWindow × indicator.SMA)
  EWMA : List (types.IntervalWindow × indicator.EWMA)
  BOLL : List (types.IntervalWindow × indicator.BOLL)
  store : MarketDataStore
  nextId : Nat
  binds : List Nat
deriving DecidableEq

/-- One iteration of the inner window loop of `NewStandardIndicatorSet`:
`set.SMA[iw] = &indicator.SMA{IntervalWindow: iw}; set.SMA[iw].Bind(store)`
and likewise for EWMA. -/
def prewarmWindow (i : types.Interval) (w : Int) (set : StandardIndicatorSet) :
    StandardIndicatorSet :=
  let iw : types.IntervalWindow := { Interval := i, Window := w }
  let sma : indicator.SMA := { id := set.nextId, IntervalWindow := iw }
  let set :=
    { set with
        SMA := ainsert set.SMA iw sma
        nextId := set.nextId + 1
        binds := set.binds ++ [sma.id] }
  let ewma : indicator.EWMA := { id := set.nextId, IntervalWindow := iw }
  { set with
      EWMA := ainsert set.EWMA iw ewma
      nextId := set.nextId + 1
      binds := set.binds ++ [ewma.id] }

/-- One iteration of the outer interval loop of `NewStandardIndicatorSet`:
the three windows 7, 25, 99 for SMA and EWMA, then the BOLL instance with
window 21 and `K: 2.0`. -/
def prewarmInterval (set : StandardIndicatorSet) (i : types.Interval) :
    StandardIndicatorSet :=
  let set := prewarmWindow i 7 set
  let set := prewarmWindow i 25 set
  let set := prewarmWindow i 99 set
  let iw : types.IntervalWindow := { Interval := i, Window := 21 }
  let boll : indicator.BOLL := { id := set.nextId, IntervalWindow := iw, K := 2 }
  { set with
      BOLL := ainsert set.BOLL iw boll
      nextId := set.nextId + 1
      binds := set.binds ++ [boll.id] }

/-- `NewStandardIndicatorSet`.  The Go code ranges over the package-level
`types.SupportedIntervals` map (outside `src/`); the supported-interval set
is therefore a parameter here, given as a list of intervals (a Go map range
visits each key once, in unspecified order). -/
def NewStandardIndicatorSet (symbol : String)
    (supportedIntervals : List types.Interval) (store : MarketDataStore) :
    StandardIndicatorSet :=
  supportedIntervals.foldl prewarmInterval
    { Symbol := symbol, SMA := [], EWMA := [], BOLL := [],
      store := store, nextId := 0, binds := [] }

/-- `GetBOLL`.  Mirrors the Go source faithfully, including the fact that
the `inc :=` inside the `if !ok` block declares a new variable shadowing the
outer `inc` (which on a miss holds the zero value nil); the `return inc`
returns the outer variable.  The inner variable is rendered `inc2` because
Lean has no shadowing inside one scope. -/
def StandardIndicatorSet.GetBOLL (set : StandardIndicatorSet)
    (iw : types.IntervalWindow) (bandWidth : Float64) :
    Option indicator.BOLL × StandardIndicatorSet :=
  let inc := alookup set.BOLL iw
  if inc.isSome then
    (inc, set)
  else
    let inc2 : indicator.BOLL := { id := set.nextId, IntervalWindow := iw, K := bandWidth }
    (inc,
      { set with
          BOLL := ainsert set.BOLL iw inc2
          nextId := set.nextId + 1
          binds := set.binds ++ [inc2.id] })

/-- `GetSMA`.  Same shadowing remark as for `GetBOLL`: on a miss the outer
`inc` (nil) is returned while the new instance only reaches the map. -/
def StandardIndicatorSet.GetSMA (set : StandardIndicatorSet)
    (iw : types.IntervalWindow) :
    Option indicator.SMA × StandardIndicatorSet :=
  let inc := alookup set.SMA iw
  if inc.isSome then
    (inc, set)
  else
    let inc2 : indicator.SMA := { id := set.nextId, IntervalWindow := iw }
    (inc,
      { set with
          SMA := ainsert set.SMA iw inc2
          nextId := set.nextId + 1
          binds := set.binds ++ [inc2.id] })

/-- `GetEWMA`.  Same shadowing remark as for `GetBOLL`. -/
def StandardIndicatorSet.GetEWMA (set : StandardIndicatorSet)
    (iw : types.IntervalWindow) :
    Option indicator.EWMA × StandardIndicatorSet :=
  let inc := alookup set.EWMA iw
  if inc.isSome then
    (inc, set)
  else
    let inc2 : indicator.EWMA := { id := set.nextId, IntervalWindow := iw }
    (inc,
      { set with
          EWMA := ainsert set.EWMA iw inc2
          nextId := set.nextId + 1
          binds := set.binds ++ [inc2.id] })

/-- ExchangeSession: the per-exchange aggregate.  The notification system,
account state, stream handle and exchange capability are external
collaborators, carried as opaque placeholders. -/
structure ExchangeSession where
  Notifiability : Unit
  Name : String
  Account : types.Account
  Stream : types.Stream
  Subscriptions : List (types.Subscription × types.Subscription)
  Exchange : types.Exchange
  markets : List (String × types.Market)
  startPrices : List (String × Float64)
  lastPrices : List (String × Float64)
  Trades : List (String × List types.Trade)
  marketDataStores : List (String × MarketDataStore)
  standardIndicatorSets : List (String × StandardIndicatorSet)
  loadedSymbols : List String
deriving DecidableEq

/-- `NewExchangeSession`: empty per-symbol maps, empty manifest, empty
account, a fresh stream from the exchange capability. -/
def NewExchangeSession (name : String) (exchange : types.Exchange) :
    ExchangeSession :=
  { Notifiability := ()
    Name := name
    Account := ()
    Stream := ()
    Subscriptions := []
    Exchange := exchange
    markets := []
    startPrices := []
    lastPrices := []
    Trades := []
    marketDataStores := []
    standardIndicatorSets := []
    loadedSymbols := [] }

/-- `StandardIndicatorSet` accessor: `(set, ok)`; the Go nil pointer on a
missing symbol is `none`. -/
def ExchangeSession.StandardIndicatorSet (session : ExchangeSession)
    (symbol : String) : Option StandardIndicatorSet × Bool :=
  let r := alookup session.standardIndicatorSets symbol
  (r, r.isSome)

/-- `MarketDataStore` accessor: `(s, ok)`. -/
def ExchangeSession.MarketDataStore (session : ExchangeSession)
    (symbol : String) : Option MarketDataStore × Bool :=
  let r := alookup session.marketDataStores symbol
  (r, r.isSome)

/-- `StartPrice` accessor: `(price, ok)`; a missing key yields the float64
zero value. -/
def ExchangeSession.StartPrice (session : ExchangeSession) (symbol : String) :
    Float64 × Bool :=
  match alookup session.startPrices symbol with
  | some price => (price, true)
  | none => (0, false)

/-- `LastPrice` accessor: `(price, ok)`. -/
def ExchangeSession.LastPrice (session : ExchangeSession) (symbol : String) :
    Float64 × Bool :=
  match alookup session.lastPrices symbol with
  | some price => (price, true)
  | none => (0, false)

/-- `Market` accessor: `(market, ok)`; a missing key yields the Market zero
value. -/
def ExchangeSession.Market (session : ExchangeSession) (symbol : String) :
    types.Market × Bool :=
  match alookup session.markets symbol with
  | some market => (market, true)
  | none => ({ Symbol := "" }, false)

/-- `Subscribe`: records the Subscription in the manifest, marks the symbol
loaded, and returns the session for chaining (in this state-passing
embedding the updated session is the return value). -/
def ExchangeSession.Subscribe (session : ExchangeSession)
    (channel : types.Channel) (symbol : String)
    (options : types.SubscribeOptions) : ExchangeSession :=
  let sub : types.Subscription :=
    { Channel := channel, Symbol := symbol, Options := options }
  { session with
      loadedSymbols := sinsert session.loadedSymbols symbol
      Subscriptions := ainsert session.Subscriptions sub sub }

/-- Modelled from the spec: the session initialization step that loads a
symbol's sub-objects is not under `src/` (only `session.go` is); the spec
says the per-symbol sub-objects (store, indicator registry, prices, trades,
market configuration) "are created together and are never partially
missing".  This operation creates all of them together for one symbol. -/
def loadSymbolObjects (supportedIntervals : List types.Interval)
    (session : ExchangeSession) (symbol : String) : ExchangeSession :=
  let store : MarketDataStore := { Symbol := symbol }
  { session with
      markets := ainsert session.markets symbol { Symbol := symbol }
      lastPrices := ainsert session.lastPrices symbol 0
      Trades := ainsert session.Trades symbol []
      marketDataStores := ainsert session.marketDataStores symbol store
      standardIndicatorSets :=
        ainsert session.standardIndicatorSets symbol
          (NewStandardIndicatorSet symbol supportedIntervals store) }

/-- Modelled from the spec: session initialization loads the sub-objects of
every symbol in the loaded-symbol set. -/
def initSymbols (supportedIntervals : List types.Interval)
    (session : ExchangeSession) : ExchangeSession :=
  session.loadedSymbols.foldl (loadSymbolObjects supportedIntervals) session

/-- Invariant of the constructor: every cached instance carries its map key
as its `IntervalWindow`, is bound to the store (its id is in the bind log),
and every cached BOLL instance has `K = 2.0`. -/
def prewarmedInv (set : StandardIndicatorSet) : Prop :=
  (∀ p ∈ set.SMA, (p.2).IntervalWindow = p.1 ∧ (p.2).id ∈ set.binds) ∧
  (∀ p ∈ set.EWMA, (p.2).IntervalWindow = p.1 ∧ (p.2).id ∈ set.binds) ∧
  (∀ p ∈ set.BOLL, (p.2).IntervalWindow = p.1 ∧ (p.2).id ∈ set.binds ∧ (p.2).K = 2)

/-- Per-interval key presence after construction. -/
def prewarmKeys (i : types.Interval) (set : StandardIndicatorSet) : Prop :=
  (⟨i, 7⟩ ∈ akeys set.SMA) ∧ (⟨i, 25⟩ ∈ akeys set.SMA) ∧ (⟨i, 99⟩ ∈ akeys set.SMA) ∧
  (⟨i, 7⟩ ∈ akeys set.EWMA) ∧ (⟨i, 25⟩ ∈ akeys set.EWMA) ∧ (⟨i, 99⟩ ∈ akeys set.EWMA) ∧
  (⟨i, 21⟩ ∈ akeys set.BOLL)

/-- No key of any family map uses interval `i` yet. -/
def freshInterval (set : StandardIndicatorSet) (i : types.Interval) : Prop :=
  (∀ k ∈ akeys set.SMA, k.Interval ≠ i) ∧
  (∀ k ∈ akeys set.EWMA, k.Interval ≠ i) ∧
  (∀ k ∈ akeys set.BOLL, k.Interval ≠ i)

/-- Every instance resident in one of the three family maps is bound to the
store (its id appears in the store's bind log). -/
def BoundInv (set : StandardIndicatorSet) : Prop :=
  (∀ p ∈ set.SMA, (p.2).id ∈ set.binds) ∧
  (∀ p ∈ set.EWMA, (p.2).id ∈ set.binds) ∧
  (∀ p ∈ set.BOLL, (p.2).id ∈ set.binds)

/-- All per-symbol sub-objects of `symbol` are present in the session. -/
def subObjectsPresent (symbol : String) (session : ExchangeSession) : Prop :=
  (alookup session.marketDataStores symbol).isSome = true ∧
  (alookup session.standardIndicatorSets symbol).isSome = true ∧
  (alookup session.lastPrices symbol).isSome = true ∧
  (alookup session.markets symbol).isSome = true ∧
  (alookup session.Trades symbol).isSome = true

/-! ### Association-list lemmas -/

section AssocLemmas

variable {α β : Type} [DecidableEq α]

theorem alookup_ainsert_self (m : List (α × β)) (k : α) (v : β) :
    alookup (ainsert m k v) k = some v := by
  induction m with
  | nil => simp [ainsert, alookup]
  | cons p rest ih =>
    obtain ⟨k', v'⟩ := p
    by_cases h : k' = k
    · simp [ainsert, h, alookup]
    · simp [ainsert, h, alookup, ih]

theorem akeys_nil : akeys ([] : List (α × β)) = [] := rfl

theorem akeys_cons (p : α × β) (m : List (α × β)) :
    akeys (p :: m) = p.1 :: akeys m := rfl

theorem alookup_ainsert_ne (m : List (α × β)) (k key : α) (v : β)
    (h : key ≠ k) : alookup (ainsert m k v) key = alookup m key := by
  have hne : k ≠ key := fun hh => h hh.symm
  induction m with
  | nil => simp [ainsert, alookup, hne]
  | cons p rest ih =>
    obtain ⟨k', v'⟩ := p
    by_cases hk : k' = k
    · subst hk
      simp [ainsert, alookup, hne]
    · simp [ainsert, hk, alookup, ih]

theorem alookup_ainsert (m : List (α × β)) (k key : α) (v : β) :
    alookup (ainsert m k v) key = if k = key then some v else alookup m key := by
  by_cases h : k = key
  · subst h; simp [alookup_ainsert_self]
  · simp [h, alookup_ainsert_ne m k key v (fun hh => h hh.symm)]

theorem alookup_isSome_ainsert (m : List (α × β)) (k key : α) (v : β)
    (h : (alookup m key).isSome = true) :
    (alookup (ainsert m k v) key).isSome = true := by
  rw [alookup_ainsert]
  by_cases hk : k = key <;> simp [hk, h]

theorem alookup_mem (m : List (α × β)) (k : α) (v : β)
    (h : alookup m k = some v) : (k, v) ∈ m := by
  induction m with
  | nil => simp [alookup] at h
  | cons p rest ih =>
    obtain ⟨k', v'⟩ := p
    by_cases hk : k' = k
    · subst hk
      simp [alookup] at h
      simp [h]
    · simp [alookup, hk] at h
      exact List.mem_cons_of_mem _ (ih h)

theorem forall_mem_ainsert {m : List (α × β)} {k : α} {v : β}
    {P : α × β → Prop} (hm : ∀ p ∈ m, P p) (hkv : P (k, v)) :
    ∀ p ∈ ainsert m k v, P p := by
  induction m with
  | nil => simpa [ainsert] using hkv
  | cons q rest ih =>
    obtain ⟨k', v'⟩ := q
    by_cases hk : k' = k
    · intro p hp
      simp only [ainsert, hk, if_pos rfl] at hp
      rcases List.mem_cons.mp hp with h | h
      · exact h ▸ hkv
      · exact hm p (List.mem_cons_of_mem _ h)
    · intro p hp
      simp only [ainsert, if_neg hk] at hp
      rcases List.mem_cons.mp hp with h | h
      · exact hm p (h ▸ List.mem_cons_self _ _)
      · exact ih (fun q hq => hm q (List.mem_cons_of_mem _ hq)) p h

theorem mem_akeys_iff_isSome (m : List (α × β)) (k : α) :
    k ∈ akeys m ↔ (alookup m k).isSome = true := by
  induction m with
  | nil => simp [akeys_nil, alookup]
  | cons p rest ih =>
    obtain ⟨k', v'⟩ := p
    by_cases hk : k' = k
    · subst hk; simp [akeys_cons, alookup]
    · simp [akeys_cons, alookup, hk, Ne.symm hk]
      exact ih

theorem akeys_ainsert_of_mem (m : List (α × β)) (k : α) (v : β)
    (h : k ∈ akeys m) : akeys (ainsert m k v) = akeys m := by
  induction m with
  | nil => simp [akeys_nil] at h
  | cons p rest ih =>
    obtain ⟨k', v'⟩ := p
    by_cases hk : k' = k
    · simp [ainsert, hk, akeys_cons]
    · rw [akeys_cons] at h
      rcases List.mem_cons.mp h with h | h
      · exact absurd h.symm hk
      · simp [ainsert, hk, akeys_cons, ih h]

theorem akeys_ainsert_of_not_mem (m : List (α × β)) (k : α) (v : β)
    (h : k ∉ akeys m) : akeys (ainsert m k v) = akeys m ++ [k] := by
  induction m with
  | nil => simp [ainsert, akeys_nil, akeys_cons]
  | cons p rest ih =>
    obtain ⟨k', v'⟩ := p
    rw [akeys_cons] at h
    have h1 : ¬k' = k := fun hh => h (hh ▸ List.mem_cons_self _ _)
    have h2 : k ∉ akeys rest := fun hh => h (List.mem_cons_of_mem _ hh)
    simp [ainsert, h1, akeys_cons, ih h2]

theorem mem_akeys_ainsert_self (m : List (α × β)) (k : α) (v : β) :
    k ∈ akeys (ainsert m k v) := by
  rw [mem_akeys_iff_isSome, alookup_ainsert_self]
  rfl

theorem mem_akeys_ainsert_mono (m : List (α × β)) (k key : α) (v : β)
    (h : key ∈ akeys m) : key ∈ akeys (ainsert m k v) := by
  rw [mem_akeys_iff_isSome] at h ⊢
  exact alookup_isSome_ainsert m k key v h

theorem mem_akeys_ainsert (m : List (α × β)) (k key : α) (v : β)
    (h : key ∈ akeys (ainsert m k v)) : key ∈ akeys m ∨ key = k := by
  by_cases hmem : k ∈ akeys m
  · rw [akeys_ainsert_of_mem m k v hmem] at h
    exact Or.inl h
  · rw [akeys_ainsert_of_not_mem m k v hmem] at h
    simpa using h

theorem nodup_akeys_ainsert (m : List (α × β)) (k : α) (v : β)
    (h : (akeys m).Nodup) : (akeys (ainsert m k v)).Nodup := by
  by_cases hmem : k ∈ akeys m
  · rwa [akeys_ainsert_of_mem m k v hmem]
  · rw [akeys_ainsert_of_not_mem m k v hmem]
    simpa [List.nodup_append] using ⟨h, hmem⟩

theorem ainsert_ainsert_same (m : List (α × β)) (k : α) (v : β) :
    ainsert (ainsert m k v) k v = ainsert m k v := by
  induction m with
  | nil => simp [ainsert]
  | cons p rest ih =>
    obtain ⟨k', v'⟩ := p
    by_cases hk : k' = k
    · simp [ainsert, hk]
    · simp [ainsert, hk, ih]

theorem length_ainsert_of_not_mem (m : List (α × β)) (k : α) (v : β)
    (h : k ∉ akeys m) : (ainsert m k v).length = m.length + 1 := by
  have := akeys_ainsert_of_not_mem m k v h
  have h1 : (akeys (ainsert m k v)).length = (akeys m ++ [k]).length := by rw [this]
  simpa [akeys] using h1

theorem mem_sinsert_self (l : List String) (s : String) : s ∈ sinsert l s := by
  by_cases h : s ∈ l <;> simp [sinsert, h]

theorem sinsert_of_mem (l : List String) (s : String) (h : s ∈ l) :
    sinsert l s = l := by
  simp [sinsert, h]

theorem nodup_sinsert (l : List String) (s : String) (h : l.Nodup) :
    (sinsert l s).Nodup := by
  by_cases hmem : s ∈ l
  · simpa [sinsert, hmem] using h
  · rw [sinsert, if_neg hmem]
    simp only [List.nodup_append, List.nodup_cons, List.not_mem_nil,
      not_false_eq_true, List.nodup_nil, and_true, true_and]
    refine ⟨h, ?_⟩
    intro a ha hb
    rcases List.mem_singleton.mp hb with rfl
    exact hmem ha

end AssocLemmas

/-- Generic fold lemma: a per-element property established when the element
is processed and preserved by every further step holds of the fold result
for every element of the list. -/
theorem foldl_pred {σ τ : Type} (f : σ → τ → σ) (P : τ → σ → Prop)
    (hstep : ∀ s a, P a (f s a)) (hmono : ∀ s a b, P a s → P a (f s b)) :
    ∀ (l : List τ) (s : σ) (a : τ), a ∈ l → P a (List.foldl f s l) := by
  have hfold : ∀ (l : List τ) (s : σ) (a : τ), P a s → P a (List.foldl f s l) := by
    intro l
    induction l with
    | nil => intro s a h; simpa using h
    | cons b rest ih =>
      intro s a h
      exact ih (f s b) a (hmono s a b h)
  intro l
  induction l with
  | nil => intro s a h; simp at h
  | cons b rest ih =>
    intro s a ha
    rcases List.mem_cons.mp ha with h | h
    · subst h
      exact hfold rest (f s a) a (hstep s a)
    · exact ih (f s b) a h

/-! ### Pre-warming lemmas -/

/-- Explicit state after one outer-loop iteration of the constructor. -/
theorem prewarmInterval_eq (set : StandardIndicatorSet) (i : types.Interval) :
    prewarmInterval set i =
      { set with
          SMA := ainsert (ainsert (ainsert set.SMA ⟨i, 7⟩ ⟨set.nextId, ⟨i, 7⟩⟩)
            ⟨i, 25⟩ ⟨set.nextId + 2, ⟨i, 25⟩⟩) ⟨i, 99⟩ ⟨set.nextId + 4, ⟨i, 99⟩⟩
          EWMA := ainsert (ainsert (ainsert set.EWMA ⟨i, 7⟩ ⟨set.nextId + 1, ⟨i, 7⟩⟩)
            ⟨i, 25⟩ ⟨set.nextId + 3, ⟨i, 25⟩⟩) ⟨i, 99⟩ ⟨set.nextId + 5, ⟨i, 99⟩⟩
          BOLL := ainsert set.BOLL ⟨i, 21⟩ ⟨set.nextId + 6, ⟨i, 21⟩, 2⟩
          nextId := set.nextId + 7
          binds := set.binds ++ [set.nextId, set.nextId + 1, set.nextId + 2,
            set.nextId + 3, set.nextId + 4, set.nextId + 5, set.nextId + 6] } := by
  simp [prewarmInterval, prewarmWindow]

theorem prewarmedInv_step (set : StandardIndicatorSet) (i : types.Interval)
    (h : prewarmedInv set) : prewarmedInv (prewarmInterval set i) := by
  obtain ⟨hS, hE, hB⟩ := h
  rw [prewarmInterval_eq]
  refine ⟨?_, ?_, ?_⟩
  · refine forall_mem_ainsert (forall_mem_ainsert (forall_mem_ainsert ?_ ?_) ?_) ?_
    · intro p hp
      exact ⟨(hS p hp).1, List.mem_append_left _ (hS p hp).2⟩
    all_goals exact ⟨rfl, by simp⟩
  · refine forall_mem_ainsert (forall_mem_ainsert (forall_mem_ainsert ?_ ?_) ?_) ?_
    · intro p hp
      exact ⟨(hE p hp).1, List.mem_append_left _ (hE p hp).2⟩
    all_goals exact ⟨rfl, by simp⟩
  · refine forall_mem_ainsert ?_ ?_
    · intro p hp
      exact ⟨(hB p hp).1, List.mem_append_left _ (hB p hp).2.1, (hB p hp).2.2⟩
    · exact ⟨rfl, by simp, rfl⟩

theorem prewarmedInv_foldl (ivs : List types.Interval)
    (set : StandardIndicatorSet) (h : prewarmedInv set) :
    prewarmedInv (ivs.foldl prewarmInterval set) := by
  induction ivs generalizing set with
  | nil => simpa using h
  | cons i rest ih => exact ih _ (prewarmedInv_step set i h)

theorem prewarmedInv_New (symbol : String) (ivs : List types.Interval)
    (store : MarketDataStore) :
    prewarmedInv (NewStandardIndicatorSet symbol ivs store) := by
  refine prewarmedInv_foldl ivs _ ?_
  refine ⟨?_, ?_, ?_⟩ <;> intro p hp <;> simp at hp

theorem prewarmKeys_step (set : StandardIndicatorSet) (i : types.Interval) :
    prewarmKeys i (prewarmInterval set i) := by
  rw [prewarmInterval_eq]
  refine ⟨?_, ?_, ?_, ?_, ?_, ?_, ?_⟩ <;>
    first
      | exact mem_akeys_ainsert_self _ _ _
      | exact mem_akeys_ainsert_mono _ _ _ _ (mem_akeys_ainsert_self _ _ _)
      | exact mem_akeys_ainsert_mono _ _ _ _
          (mem_akeys_ainsert_mono _ _ _ _ (mem_akeys_ainsert_self _ _ _))

theorem prewarmKeys_mono (set : StandardIndicatorSet) (i j : types.Interval)
    (h : prewarmKeys i set) : prewarmKeys i (prewarmInterval set j) := by
  obtain ⟨h1, h2, h3, h4, h5, h6, h7⟩ := h
  rw [prewarmInterval_eq]
  exact ⟨mem_akeys_ainsert_mono _ _ _ _ (mem_akeys_ainsert_mono _ _ _ _
           (mem_akeys_ainsert_mono _ _ _ _ h1)),
         mem_akeys_ainsert_mono _ _ _ _ (mem_akeys_ainsert_mono _ _ _ _
           (mem_akeys_ainsert_mono _ _ _ _ h2)),
         mem_akeys_ainsert_mono _ _ _ _ (mem_akeys_ainsert_mono _ _ _ _
           (mem_akeys_ainsert_mono _ _ _ _ h3)),
         mem_akeys_ainsert_mono _ _ _ _ (mem_akeys_ainsert_mono _ _ _ _
           (mem_akeys_ainsert_mono _ _ _ _ h4)),
         mem_akeys_ainsert_mono _ _ _ _ (mem_akeys_ainsert_mono _ _ _ _
           (mem_akeys_ainsert_mono _ _ _ _ h5)),
         mem_akeys_ainsert_mono _ _ _ _ (mem_akeys_ainsert_mono _ _ _ _
           (mem_akeys_ainsert_mono _ _ _ _ h6)),
         mem_akeys_ainsert_mono _ _ _ _ h7⟩

theorem prewarmKeys_New (symbol : String) (ivs : List types.Interval)
    (store : MarketDataStore) (i : types.Interval) (h : i ∈ ivs) :
    prewarmKeys i (NewStandardIndicatorSet symbol ivs store) :=
  foldl_pred prewarmInterval prewarmKeys
    (fun s a => prewarmKeys_step s a)
    (fun s a b hp => prewarmKeys_mono s a b hp) ivs _ i h

theorem akeys_ainsert3 {β : Type} (m : List (types.IntervalWindow × β))
    (i : types.Interval) (v1 v2 v3 : β)
    (h : ∀ k ∈ akeys m, k.Interval ≠ i) :
    akeys (ainsert (ainsert (ainsert m ⟨i, 7⟩ v1) ⟨i, 25⟩ v2) ⟨i, 99⟩ v3) =
      akeys m ++ [⟨i, 7⟩, ⟨i, 25⟩, ⟨i, 99⟩] := by
  have h7 : (⟨i, 7⟩ : types.IntervalWindow) ∉ akeys m := fun hh => h _ hh rfl
  have e1 := akeys_ainsert_of_not_mem m ⟨i, 7⟩ v1 h7
  have h25 : (⟨i, 25⟩ : types.IntervalWindow) ∉ akeys (ainsert m ⟨i, 7⟩ v1) := by
    rw [e1]
    intro hh
    rcases List.mem_append.mp hh with hh | hh
    · exact h _ hh rfl
    · simp at hh
  have e2 := akeys_ainsert_of_not_mem (ainsert m ⟨i, 7⟩ v1) ⟨i, 25⟩ v2 h25
  have h99 : (⟨i, 99⟩ : types.IntervalWindow) ∉
      akeys (ainsert (ainsert m ⟨i, 7⟩ v1) ⟨i, 25⟩ v2) := by
    rw [e2, e1]
    intro hh
    rcases List.mem_append.mp hh with hh | hh
    · rcases List.mem_append.mp hh with hh | hh
      · exact h _ hh rfl
      · simp at hh
    · simp at hh
  rw [akeys_ainsert_of_not_mem (ainsert (ainsert m ⟨i, 7⟩ v1) ⟨i, 25⟩ v2)
    ⟨i, 99⟩ v3 h99, e2, e1]
  simp

theorem akeys_prewarmInterval (set : StandardIndicatorSet)
    (i : types.Interval) (h : freshInterval set i) :
    akeys (prewarmInterval set i).SMA =
        akeys set.SMA ++ [⟨i, 7⟩, ⟨i, 25⟩, ⟨i, 99⟩] ∧
    akeys (prewarmInterval set i).EWMA =
        akeys set.EWMA ++ [⟨i, 7⟩, ⟨i, 25⟩, ⟨i, 99⟩] ∧
    akeys (prewarmInterval set i).BOLL = akeys set.BOLL ++ [⟨i, 21⟩] := by
  obtain ⟨hS, hE, hB⟩ := h
  rw [prewarmInterval_eq]
  dsimp only
  have h21B : (⟨i, 21⟩ : types.IntervalWindow) ∉ akeys set.BOLL :=
    fun hh => hB _ hh rfl
  exact ⟨akeys_ainsert3 set.SMA i _ _ _ hS,
         akeys_ainsert3 set.EWMA i _ _ _ hE,
         akeys_ainsert_of_not_mem _ _ _ h21B⟩

theorem freshInterval_step (set : StandardIndicatorSet) (i j : types.Interval)
    (h : freshInterval set j) (hne : i ≠ j) :
    freshInterval (prewarmInterval set i) j := by
  obtain ⟨hS, hE, hB⟩ := h
  rw [prewarmInterval_eq]
  refine ⟨?_, ?_, ?_⟩
  · intro k hk
    rcases mem_akeys_ainsert _ _ _ _ hk with hk | hk
    · rcases mem_akeys_ainsert _ _ _ _ hk with hk | hk
      · rcases mem_akeys_ainsert _ _ _ _ hk with hk | hk
        · exact hS _ hk
        · subst hk; exact hne
      · subst hk; exact hne
    · subst hk; exact hne
  · intro k hk
    rcases mem_akeys_ainsert _ _ _ _ hk with hk | hk
    · rcases mem_akeys_ainsert _ _ _ _ hk with hk | hk
      · rcases mem_akeys_ainsert _ _ _ _ hk with hk | hk
        · exact hE _ hk
        · subst hk; exact hne
      · subst hk; exact hne
    · subst hk; exact hne
  · intro k hk
    rcases mem_akeys_ainsert _ _ _ _ hk with hk | hk
    · exact hB _ hk
    · subst hk; exact hne

theorem akeys_foldl_prewarm (ivs : List types.Interval) :
    ∀ set : StandardIndicatorSet, ivs.Nodup →
    (∀ i ∈ ivs, freshInterval set i) →
    akeys (ivs.foldl prewarmInterval set).SMA =
        akeys set.SMA ++ ivs.flatMap (fun i => [⟨i, 7⟩, ⟨i, 25⟩, ⟨i, 99⟩]) ∧
    akeys (ivs.foldl prewarmInterval set).EWMA =
        akeys set.EWMA ++ ivs.flatMap (fun i => [⟨i, 7⟩, ⟨i, 25⟩, ⟨i, 99⟩]) ∧
    akeys (ivs.foldl prewarmInterval set).BOLL =
        akeys set.BOLL ++ ivs.map (fun i => ⟨i, 21⟩) := by
  induction ivs with
  | nil => intro set _ _; simp
  | cons i rest ih =>
    intro set hnd hfresh
    have hi : freshInterval set i := hfresh i (List.mem_cons_self _ _)
    have hstep := akeys_prewarmInterval set i hi
    have hnotmem : i ∉ rest := (List.nodup_cons.mp hnd).1
    have hrest : ∀ j ∈ rest, freshInterval (prewarmInterval set i) j := by
      intro j hj
      refine freshInterval_step set i j (hfresh j (List.mem_cons_of_mem _ hj)) ?_
      intro hh
      exact hnotmem (hh ▸ hj)
    have := ih (prewarmInterval set i) (List.nodup_cons.mp hnd).2 hrest
    simp only [List.foldl_cons]
    refine ⟨?_, ?_, ?_⟩
    · rw [this.1, hstep.1]; simp
    · rw [this.2.1, hstep.2.1]; simp
    · rw [this.2.2, hstep.2.2]; simp

/-- Exact key lists of a freshly constructed indicator set. -/
theorem akeys_New (symbol : String) (ivs : List types.Interval)
    (store : MarketDataStore) (hnd : ivs.Nodup) :
    akeys (NewStandardIndicatorSet symbol ivs store).SMA =
        ivs.flatMap (fun i => [⟨i, 7⟩, ⟨i, 25⟩, ⟨i, 99⟩]) ∧
    akeys (NewStandardIndicatorSet symbol ivs store).EWMA =
        ivs.flatMap (fun i => [⟨i, 7⟩, ⟨i, 25⟩, ⟨i, 99⟩]) ∧
    akeys (NewStandardIndicatorSet symbol ivs store).BOLL =
        ivs.map (fun i => ⟨i, 21⟩) := by
  have := akeys_foldl_prewarm ivs
    { Symbol := symbol, SMA := [], EWMA := [], BOLL := [],
      store := store, nextId := 0, binds := [] }
    hnd (fun i _ => ⟨fun k hk => by simp [akeys_nil] at hk,
                     fun k hk => by simp [akeys_nil] at hk,
                     fun k hk => by simp [akeys_nil] at hk⟩)
  simpa [NewStandardIndicatorSet, akeys_nil] using this

theorem length_flatMap_three {σ τ : Type} (f g h : σ → τ) (l : List σ) :
    (l.flatMap (fun i => [f i, g i, h i])).length = 3 * l.length := by
  induction l with
  | nil => simp
  | cons a rest ih => simp [ih]; ring

/-! ### Get hit/miss characterizations -/

theorem getSMA_hit (set : StandardIndicatorSet) (iw : types.IntervalWindow)
    (v : indicator.SMA) (hv : alookup set.SMA iw = some v) :
    set.GetSMA iw = (some v, set) := by
  simp [StandardIndicatorSet.GetSMA, hv]

theorem getEWMA_hit (set : StandardIndicatorSet) (iw : types.IntervalWindow)
    (v : indicator.EWMA) (hv : alookup set.EWMA iw = some v) :
    set.GetEWMA iw = (some v, set) := by
  simp [StandardIndicatorSet.GetEWMA, hv]

theorem getBOLL_hit (set : StandardIndicatorSet) (iw : types.IntervalWindow)
    (bandWidth : Float64) (v : indicator.BOLL)
    (hv : alookup set.BOLL iw = some v) :
    set.GetBOLL iw bandWidth = (some v, set) := by
  simp [StandardIndicatorSet.GetBOLL, hv]

theorem getSMA_miss (set : StandardIndicatorSet) (iw : types.IntervalWindow)
    (h : alookup set.SMA iw = none) :
    set.GetSMA iw =
      (none,
       { set with
           SMA := ainsert set.SMA iw ⟨set.nextId, iw⟩
           nextId := set.nextId + 1
           binds := set.binds ++ [set.nextId] }) := by
  simp [StandardIndicatorSet.GetSMA, h]

theorem getEWMA_miss (set : StandardIndicatorSet) (iw : types.IntervalWindow)
    (h : alookup set.EWMA iw = none) :
    set.GetEWMA iw =
      (none,
       { set with
           EWMA := ainsert set.EWMA iw ⟨set.nextId, iw⟩
           nextId := set.nextId + 1
           binds := set.binds ++ [set.nextId] }) := by
  simp [StandardIndicatorSet.GetEWMA, h]

theorem getBOLL_miss (set : StandardIndicatorSet) (iw : types.IntervalWindow)
    (bandWidth : Float64) (h : alookup set.BOLL iw = none) :
    set.GetBOLL iw bandWidth =
      (none,
       { set with
           BOLL := ainsert set.BOLL iw ⟨set.nextId, iw, bandWidth⟩
           nextId := set.nextId + 1
           binds := set.binds ++ [set.nextId] }) := by
  simp [StandardIndicatorSet.GetBOLL, h]

/-! ### Claim theorems -/

/-- C1: the claim states that every get-or-create call returns the indicator
instance for its key and never returns nil.  Evaluating the code at a cache
miss (fresh registry over supported intervals {1m}, key (1m, 14)) shows the
opposite: each getter does construct, bind and insert a new instance - the
map lookup afterwards succeeds - but the value returned to the caller is
nil, because the `inc` declared inside the `if !ok` block shadows the
variable that is returned.  This also contradicts the getters' own doc
comments, which promise the indicator of the given interval and window. -/
theorem getters_return_nil_on_cache_miss :
    (let set := NewStandardIndicatorSet "BTCUSDT" ["1m"] { Symbol := "BTCUSDT" };
     (set.GetSMA ⟨"1m", 14⟩).1 = none ∧
     (alookup (set.GetSMA ⟨"1m", 14⟩).2.SMA ⟨"1m", 14⟩).isSome = true ∧
     (set.GetEWMA ⟨"1m", 14⟩).1 = none ∧
     (alookup (set.GetEWMA ⟨"1m", 14⟩).2.EWMA ⟨"1m", 14⟩).isSome = true ∧
     (set.GetBOLL ⟨"1m", 14⟩ 3).1 = none ∧
     (alookup (set.GetBOLL ⟨"1m", 14⟩ 3).2.BOLL ⟨"1m", 14⟩).isSome = true) := by
  decide

/-- C2: the claim states that two successive get-or-create calls with the
same key return the identical instance on both calls.  Evaluating GetSMA at
a fresh key (1m, 14) on a registry over supported intervals {1m}: the first
call returns nil (the shadowing slip), the second call returns the cached
instance, so the two returned values differ. -/
theorem getSMA_two_calls_return_different_values :
    (let set := NewStandardIndicatorSet "BTCUSDT" ["1m"] { Symbol := "BTCUSDT" };
     let r1 := set.GetSMA ⟨"1m", 14⟩;
     let r2 := r1.2.GetSMA ⟨"1m", 14⟩;
     r1.1 = none ∧ r2.1 ≠ none ∧ r1.1 ≠ r2.1) := by
  decide

/-- C3: `NewStandardIndicatorSet` pre-warms exactly one SMA and one EWMA
instance per (interval, window) for every supported interval and window in
{7, 25, 99}, and exactly one BOLL instance per supported interval keyed
(interval, 21) with multiplier 2.0; every pre-warmed instance carries its
key and is bound to the store.  With n supported intervals the SMA and EWMA
maps hold 3n entries and the BOLL map n entries (so 6, 6 and 2 for a
supported-interval set of size 2). -/
theorem newStandardIndicatorSet_prewarms_exactly (symbol : String)
    (ivs : List types.Interval) (store : MarketDataStore) (hnd : ivs.Nodup) :
    (NewStandardIndicatorSet symbol ivs store).SMA.length = 3 * ivs.length ∧
    (NewStandardIndicatorSet symbol ivs store).EWMA.length = 3 * ivs.length ∧
    (NewStandardIndicatorSet symbol ivs store).BOLL.length = ivs.length ∧
    akeys (NewStandardIndicatorSet symbol ivs store).SMA =
      ivs.flatMap (fun i => [⟨i, 7⟩, ⟨i, 25⟩, ⟨i, 99⟩]) ∧
    akeys (NewStandardIndicatorSet symbol ivs store).EWMA =
      ivs.flatMap (fun i => [⟨i, 7⟩, ⟨i, 25⟩, ⟨i, 99⟩]) ∧
    akeys (NewStandardIndicatorSet symbol ivs store).BOLL =
      ivs.map (fun i => ⟨i, 21⟩) ∧
    prewarmedInv (NewStandardIndicatorSet symbol ivs store) := by
  obtain ⟨eS, eE, eB⟩ := akeys_New symbol ivs store hnd
  have lS : (NewStandardIndicatorSet symbol ivs store).SMA.length =
      (akeys (NewStandardIndicatorSet symbol ivs store).SMA).length := by
    simp [akeys]
  have lE : (NewStandardIndicatorSet symbol ivs store).EWMA.length =
      (akeys (NewStandardIndicatorSet symbol ivs store).EWMA).length := by
    simp [akeys]
  have lB : (NewStandardIndicatorSet symbol ivs store).BOLL.length =
      (akeys (NewStandardIndicatorSet symbol ivs store).BOLL).length := by
    simp [akeys]
  refine ⟨?_, ?_, ?_, eS, eE, eB, prewarmedInv_New symbol ivs store⟩
  · rw [lS, eS, length_flatMap_three]
  · rw [lE, eE, length_flatMap_three]
  · rw [lB, eB, List.length_map]

/-- Witness for C3 at the spec's scenario: symbol "BTCUSDT", supported
intervals {1m, 1h}; the SMA map has exactly 6 entries, the EWMA map 6, the
BOLL map 2. -/
theorem newStandardIndicatorSet_prewarms_exactly_witness :
    List.Nodup ["1m", "1h"] ∧
    (NewStandardIndicatorSet "BTCUSDT" ["1m", "1h"]
      { Symbol := "BTCUSDT" }).SMA.length = 6 ∧
    (NewStandardIndicatorSet "BTCUSDT" ["1m", "1h"]
      { Symbol := "BTCUSDT" }).EWMA.length = 6 ∧
    (NewStandardIndicatorSet "BTCUSDT" ["1m", "1h"]
      { Symbol := "BTCUSDT" }).BOLL.length = 2 :=
  ⟨by decide,
   (newStandardIndicatorSet_prewarms_exactly "BTCUSDT" ["1m", "1h"]
     { Symbol := "BTCUSDT" } (by decide)).1,
   (newStandardIndicatorSet_prewarms_exactly "BTCUSDT" ["1m", "1h"]
     { Symbol := "BTCUSDT" } (by decide)).2.1,
   (newStandardIndicatorSet_prewarms_exactly "BTCUSDT" ["1m", "1h"]
     { Symbol := "BTCUSDT" } (by decide)).2.2.1⟩

/-- C4: for a supported interval, GetBOLL with key (interval, 21) and any
multiplier argument returns the pre-warmed instance whose multiplier K is
2.0 and leaves the registry completely unchanged: the caller-supplied
multiplier is ignored, nothing is constructed and nothing is bound. -/
theorem getBOLL_window21_hit_ignores_multiplier (symbol : String)
    (ivs : List types.Interval) (store : MarketDataStore)
    (i : types.Interval) (bandWidth : Float64) (h : i ∈ ivs) :
    ∃ v : indicator.BOLL,
      (NewStandardIndicatorSet symbol ivs store).GetBOLL ⟨i, 21⟩ bandWidth =
        (some v, NewStandardIndicatorSet symbol ivs store) ∧ v.K = 2 := by
  have hkey := (prewarmKeys_New symbol ivs store i h).2.2.2.2.2.2
  rw [mem_akeys_iff_isSome] at hkey
  obtain ⟨v, hv⟩ := Option.isSome_iff_exists.mp hkey
  refine ⟨v, getBOLL_hit _ _ _ _ hv, ?_⟩
  exact ((prewarmedInv_New symbol ivs store).2.2 _ (alookup_mem _ _ _ hv)).2.2

/-- Witness for C4: interval "1m" of supported set {1m, 1h}, caller
multiplier 3 (deliberately different from 2.0). -/
theorem getBOLL_window21_hit_ignores_multiplier_witness :
    "1m" ∈ ["1m", "1h"] ∧
    (∃ v : indicator.BOLL,
      (NewStandardIndicatorSet "BTCUSDT" ["1m", "1h"]
          { Symbol := "BTCUSDT" }).GetBOLL ⟨"1m", 21⟩ 3 =
        (some v, NewStandardIndicatorSet "BTCUSDT" ["1m", "1h"]
          { Symbol := "BTCUSDT" }) ∧ v.K = 2) :=
  ⟨by decide,
   getBOLL_window21_hit_ignores_multiplier "BTCUSDT" ["1m", "1h"]
     { Symbol := "BTCUSDT" } "1m" 3 (by decide)⟩

/-- C5: GetBOLL on a key absent from the BOLL map constructs exactly one new
instance (one allocation) whose K is the caller-supplied multiplier, binds
it exactly once (exactly one bind event is appended), and inserts it into
the BOLL map under the key; the other family maps are untouched. -/
theorem getBOLL_miss_constructs_binds_inserts (set : StandardIndicatorSet)
    (iw : types.IntervalWindow) (bandWidth : Float64)
    (h : alookup set.BOLL iw = none) :
    (set.GetBOLL iw bandWidth).2.BOLL =
        ainsert set.BOLL iw ⟨set.nextId, iw, bandWidth⟩ ∧
    alookup (set.GetBOLL iw bandWidth).2.BOLL iw =
        some ⟨set.nextId, iw, bandWidth⟩ ∧
    (set.GetBOLL iw bandWidth).2.nextId = set.nextId + 1 ∧
    (set.GetBOLL iw bandWidth).2.binds = set.binds ++ [set.nextId] ∧
    (set.GetBOLL iw bandWidth).2.SMA = set.SMA ∧
    (set.GetBOLL iw bandWidth).2.EWMA = set.EWMA := by
  rw [getBOLL_miss set iw bandWidth h]
  exact ⟨rfl, alookup_ainsert_self _ _ _, rfl, rfl, rfl, rfl⟩

/-- Witness for C5: a fresh registry over {1m} has no BOLL entry for
(1m, 10); calling GetBOLL there with multiplier 3 inserts a bound instance
with K = 3 and appends exactly one bind event. -/
theorem getBOLL_miss_constructs_binds_inserts_witness :
    alookup (NewStandardIndicatorSet "BTCUSDT" ["1m"]
      { Symbol := "BTCUSDT" }).BOLL ⟨"1m", 10⟩ = none ∧
    alookup ((NewStandardIndicatorSet "BTCUSDT" ["1m"]
        { Symbol := "BTCUSDT" }).GetBOLL ⟨"1m", 10⟩ 3).2.BOLL ⟨"1m", 10⟩ =
      some ⟨(NewStandardIndicatorSet "BTCUSDT" ["1m"]
        { Symbol := "BTCUSDT" }).nextId, ⟨"1m", 10⟩, 3⟩ ∧
    ((NewStandardIndicatorSet "BTCUSDT" ["1m"]
        { Symbol := "BTCUSDT" }).GetBOLL ⟨"1m", 10⟩ 3).2.binds =
      (NewStandardIndicatorSet "BTCUSDT" ["1m"] { Symbol := "BTCUSDT" }).binds ++
        [(NewStandardIndicatorSet "BTCUSDT" ["1m"] { Symbol := "BTCUSDT" }).nextId] :=
  ⟨by decide,
   (getBOLL_miss_constructs_binds_inserts
     (NewStandardIndicatorSet "BTCUSDT" ["1m"] { Symbol := "BTCUSDT" })
     ⟨"1m", 10⟩ 3 (by decide)).2.1,
   (getBOLL_miss_constructs_binds_inserts
     (NewStandardIndicatorSet "BTCUSDT" ["1m"] { Symbol := "BTCUSDT" })
     ⟨"1m", 10⟩ 3 (by decide)).2.2.2.1⟩

/-- C6: after construction, GetSMA and GetEWMA with any pre-warmed key
(supported interval, window in {7, 25, 99}) take the cache-hit path: each
returns an already-bound instance and leaves the registry - in particular
the store's bind log - unchanged. -/
theorem getSMA_getEWMA_prewarmed_hit (symbol : String)
    (ivs : List types.Interval) (store : MarketDataStore)
    (i : types.Interval) (w : Int) (hi : i ∈ ivs)
    (hw : w ∈ ([7, 25, 99] : List Int)) :
    (∃ v : indicator.SMA,
      (NewStandardIndicatorSet symbol ivs store).GetSMA ⟨i, w⟩ =
        (some v, NewStandardIndicatorSet symbol ivs store) ∧
      v.id ∈ (NewStandardIndicatorSet symbol ivs store).binds) ∧
    (∃ v : indicator.EWMA,
      (NewStandardIndicatorSet symbol ivs store).GetEWMA ⟨i, w⟩ =
        (some v, NewStandardIndicatorSet symbol ivs store) ∧
      v.id ∈ (NewStandardIndicatorSet symbol ivs store).binds) := by
  obtain ⟨k1, k2, k3, k4, k5, k6, _⟩ := prewarmKeys_New symbol ivs store i hi
  have hinv := prewarmedInv_New symbol ivs store
  have hw' : w = 7 ∨ w = 25 ∨ w = 99 := by simpa using hw
  have hwS : (⟨i, w⟩ : types.IntervalWindow) ∈
      akeys (NewStandardIndicatorSet symbol ivs store).SMA := by
    rcases hw' with rfl | rfl | rfl
    · exact k1
    · exact k2
    · exact k3
  have hwE : (⟨i, w⟩ : types.IntervalWindow) ∈
      akeys (NewStandardIndicatorSet symbol ivs store).EWMA := by
    rcases hw' with rfl | rfl | rfl
    · exact k4
    · exact k5
    · exact k6
  rw [mem_akeys_iff_isSome] at hwS hwE
  obtain ⟨v1, hv1⟩ := Option.isSome_iff_exists.mp hwS
  obtain ⟨v2, hv2⟩ := Option.isSome_iff_exists.mp hwE
  exact ⟨⟨v1, getSMA_hit _ _ _ hv1,
          (hinv.1 _ (alookup_mem _ _ _ hv1)).2⟩,
         ⟨v2, getEWMA_hit _ _ _ hv2,
          (hinv.2.1 _ (alookup_mem _ _ _ hv2)).2⟩⟩

/-- Witness for C6 at interval "1h" of {1m, 1h} and window 25. -/
theorem getSMA_getEWMA_prewarmed_hit_witness :
    "1h" ∈ ["1m", "1h"] ∧ (25 : Int) ∈ ([7, 25, 99] : List Int) ∧
    ((∃ v : indicator.SMA,
      (NewStandardIndicatorSet "BTCUSDT" ["1m", "1h"]
          { Symbol := "BTCUSDT" }).GetSMA ⟨"1h", 25⟩ =
        (some v, NewStandardIndicatorSet "BTCUSDT" ["1m", "1h"]
          { Symbol := "BTCUSDT" }) ∧
      v.id ∈ (NewStandardIndicatorSet "BTCUSDT" ["1m", "1h"]
          { Symbol := "BTCUSDT" }).binds) ∧
    (∃ v : indicator.EWMA,
      (NewStandardIndicatorSet "BTCUSDT" ["1m", "1h"]
          { Symbol := "BTCUSDT" }).GetEWMA ⟨"1h", 25⟩ =
        (some v, NewStandardIndicatorSet "BTCUSDT" ["1m", "1h"]
          { Symbol := "BTCUSDT" }) ∧
      v.id ∈ (NewStandardIndicatorSet "BTCUSDT" ["1m", "1h"]
          { Symbol := "BTCUSDT" }).binds)) :=
  ⟨by decide, by decide,
   getSMA_getEWMA_prewarmed_hit "BTCUSDT" ["1m", "1h"] { Symbol := "BTCUSDT" }
     "1h" 25 (by decide) (by decide)⟩

/-- C7: Subscribe is idempotent and chainable.  After one call the manifest
holds the subscription value under exactly one key and the loaded-symbol set
holds the symbol exactly once; an identical second call returns a session
equal to the first call's result, changing no observable state.  (In this
state-passing embedding the chainable return value is the session state
itself.) -/
theorem subscribe_idempotent (session : ExchangeSession)
    (channel : types.Channel) (symbol : String)
    (options : types.SubscribeOptions)
    (hsub : (akeys session.Subscriptions).Nodup)
    (hsym : session.loadedSymbols.Nodup) :
    (session.Subscribe channel symbol options).Subscribe channel symbol options =
        session.Subscribe channel symbol options ∧
    (akeys (session.Subscribe channel symbol options).Subscriptions).count
        ⟨channel, symbol, options⟩ = 1 ∧
    (session.Subscribe channel symbol options).loadedSymbols.count symbol = 1 := by
  refine ⟨?_, ?_, ?_⟩
  · simp [ExchangeSession.Subscribe, ainsert_ainsert_same,
      sinsert_of_mem _ _ (mem_sinsert_self session.loadedSymbols symbol)]
  · exact List.count_eq_one_of_mem
      (nodup_akeys_ainsert _ _ _ hsub)
      (mem_akeys_ainsert_self session.Subscriptions _ _)
  · exact List.count_eq_one_of_mem
      (nodup_sinsert _ _ hsym)
      (mem_sinsert_self session.loadedSymbols symbol)

/-- Witness for C7 on a fresh session. -/
theorem subscribe_idempotent_witness :
    (akeys (NewExchangeSession "max" ()).Subscriptions).Nodup ∧
    (NewExchangeSession "max" ()).loadedSymbols.Nodup ∧
    ((NewExchangeSession "max" ()).Subscribe "kline" "BTCUSDT"
        ⟨"1m", ""⟩).Subscribe "kline" "BTCUSDT" ⟨"1m", ""⟩ =
      (NewExchangeSession "max" ()).Subscribe "kline" "BTCUSDT" ⟨"1m", ""⟩ ∧
    (akeys ((NewExchangeSession "max" ()).Subscribe "kline" "BTCUSDT"
        ⟨"1m", ""⟩).Subscriptions).count ⟨"kline", "BTCUSDT", ⟨"1m", ""⟩⟩ = 1 ∧
    ((NewExchangeSession "max" ()).Subscribe "kline" "BTCUSDT"
        ⟨"1m", ""⟩).loadedSymbols.count "BTCUSDT" = 1 :=
  ⟨by decide, by decide,
   (subscribe_idempotent (NewExchangeSession "max" ()) "kline" "BTCUSDT"
     ⟨"1m", ""⟩ (by decide) (by decide)).1,
   (subscribe_idempotent (NewExchangeSession "max" ()) "kline" "BTCUSDT"
     ⟨"1m", ""⟩ (by decide) (by decide)).2.1,
   (subscribe_idempotent (NewExchangeSession "max" ()) "kline" "BTCUSDT"
     ⟨"1m", ""⟩ (by decide) (by decide)).2.2⟩

/-- C8: on a freshly constructed session no symbol is loaded, and every
lookup accessor - StandardIndicatorSet, MarketDataStore, StartPrice,
LastPrice, Market - reports absence through `found = false` together with
the Go zero value; the operations are total, with no error path. -/
theorem fresh_session_lookups_not_found (name : String)
    (exchange : types.Exchange) (symbol : String) :
    (NewExchangeSession name exchange).StandardIndicatorSet symbol = (none, false) ∧
    (NewExchangeSession name exchange).MarketDataStore symbol = (none, false) ∧
    (NewExchangeSession name exchange).StartPrice symbol = (0, false) ∧
    (NewExchangeSession name exchange).LastPrice symbol = (0, false) ∧
    (NewExchangeSession name exchange).Market symbol = ({ Symbol := "" }, false) :=
  ⟨rfl, rfl, rfl, rfl, rfl⟩

theorem subObjectsPresent_load (supportedIntervals : List types.Interval)
    (session : ExchangeSession) (symbol : String) :
    subObjectsPresent symbol (loadSymbolObjects supportedIntervals session symbol) := by
  refine ⟨?_, ?_, ?_, ?_, ?_⟩ <;>
    simp [loadSymbolObjects, alookup_ainsert_self]

theorem subObjectsPresent_mono (supportedIntervals : List types.Interval)
    (session : ExchangeSession) (symbol other : String)
    (h : subObjectsPresent symbol session) :
    subObjectsPresent symbol (loadSymbolObjects supportedIntervals session other) := by
  obtain ⟨h1, h2, h3, h4, h5⟩ := h
  exact ⟨alookup_isSome_ainsert _ _ _ _ h1,
         alookup_isSome_ainsert _ _ _ _ h2,
         alookup_isSome_ainsert _ _ _ _ h3,
         alookup_isSome_ainsert _ _ _ _ h4,
         alookup_isSome_ainsert _ _ _ _ h5⟩

/-- C9: every symbol in the loaded-symbol set - in particular any symbol
passed to Subscribe - has, once the session's initialization step has
created the sub-objects of the loaded symbols (that step lies outside
`src/` and is modelled from the spec's "created together" contract), all
four per-symbol sub-objects at once: the MarketDataStore,
StandardIndicatorSet, LastPrice and Market lookups all report
`found = true`, and the trade list is present as well, never a partial
subset. -/
theorem loaded_symbol_subobjects_found (session : ExchangeSession)
    (supportedIntervals : List types.Interval) (symbol : String)
    (h : symbol ∈ session.loadedSymbols) :
    ((initSymbols supportedIntervals session).MarketDataStore symbol).2 = true ∧
    ((initSymbols supportedIntervals session).StandardIndicatorSet symbol).2 = true ∧
    ((initSymbols supportedIntervals session).LastPrice symbol).2 = true ∧
    ((initSymbols supportedIntervals session).Market symbol).2 = true ∧
    (alookup (initSymbols supportedIntervals session).Trades symbol).isSome = true := by
  have hp : subObjectsPresent symbol (initSymbols supportedIntervals session) :=
    foldl_pred (loadSymbolObjects supportedIntervals) subObjectsPresent
      (fun s a => subObjectsPresent_load supportedIntervals s a)
      (fun s a b hb => subObjectsPresent_mono supportedIntervals s a b hb)
      session.loadedSymbols session symbol h
  obtain ⟨h1, h2, h3, h4, h5⟩ := hp
  refine ⟨?_, ?_, ?_, ?_, h5⟩
  · simpa [ExchangeSession.MarketDataStore] using h1
  · simpa [ExchangeSession.StandardIndicatorSet] using h2
  · obtain ⟨p, hp3⟩ := Option.isSome_iff_exists.mp h3
    simp [ExchangeSession.LastPrice, hp3]
  · obtain ⟨m, hp4⟩ := Option.isSome_iff_exists.mp h4
    simp [ExchangeSession.Market, hp4]

/-- Witness for C9: a fresh session with "BTCUSDT" subscribed; after the
initialization step, all lookups of the symbol succeed. -/
theorem loaded_symbol_subobjects_found_witness :
    "BTCUSDT" ∈ ((NewExchangeSession "max" ()).Subscribe "kline" "BTCUSDT"
      ⟨"1m", ""⟩).loadedSymbols ∧
    ((initSymbols ["1m"] ((NewExchangeSession "max" ()).Subscribe "kline"
      "BTCUSDT" ⟨"1m", ""⟩)).MarketDataStore "BTCUSDT").2 = true ∧
    ((initSymbols ["1m"] ((NewExchangeSession "max" ()).Subscribe "kline"
      "BTCUSDT" ⟨"1m", ""⟩)).StandardIndicatorSet "BTCUSDT").2 = true ∧
    ((initSymbols ["1m"] ((NewExchangeSession "max" ()).Subscribe "kline"
      "BTCUSDT" ⟨"1m", ""⟩)).LastPrice "BTCUSDT").2 = true ∧
    ((initSymbols ["1m"] ((NewExchangeSession "max" ()).Subscribe "kline"
      "BTCUSDT" ⟨"1m", ""⟩)).Market "BTCUSDT").2 = true :=
  ⟨by decide,
   (loaded_symbol_subobjects_found ((NewExchangeSession "max" ()).Subscribe
     "kline" "BTCUSDT" ⟨"1m", ""⟩) ["1m"] "BTCUSDT" (by decide)).1,
   (loaded_symbol_subobjects_found ((NewExchangeSession "max" ()).Subscribe
     "kline" "BTCUSDT" ⟨"1m", ""⟩) ["1m"] "BTCUSDT" (by decide)).2.1,
   (loaded_symbol_subobjects_found ((NewExchangeSession "max" ()).Subscribe
     "kline" "BTCUSDT" ⟨"1m", ""⟩) ["1m"] "BTCUSDT" (by decide)).2.2.1,
   (loaded_symbol_subobjects_found ((NewExchangeSession "max" ()).Subscribe
     "kline" "BTCUSDT" ⟨"1m", ""⟩) ["1m"] "BTCUSDT" (by decide)).2.2.2.1⟩

/-- C10: on a registry whose cached instances are all store-bound, one call
to GetSMA, GetEWMA or GetBOLL with any key - hit or miss - leaves a
store-bound instance in the family map under that key, and a second call
with the same key (any multiplier for BOLL) returns exactly that
map-resident instance while changing nothing, so the returned identity is
stable from the second call onward even when the first call's return value
(nil on a miss) is not the map-resident instance. -/
theorem get_then_get_returns_map_resident (set : StandardIndicatorSet)
    (iw : types.IntervalWindow) (bw1 bw2 : Float64) (hinv : BoundInv set) :
    (∃ v : indicator.SMA,
       alookup (set.GetSMA iw).2.SMA iw = some v ∧
       v.id ∈ (set.GetSMA iw).2.binds ∧
       (set.GetSMA iw).2.GetSMA iw = (some v, (set.GetSMA iw).2)) ∧
    (∃ v : indicator.EWMA,
       alookup (set.GetEWMA iw).2.EWMA iw = some v ∧
       v.id ∈ (set.GetEWMA iw).2.binds ∧
       (set.GetEWMA iw).2.GetEWMA iw = (some v, (set.GetEWMA iw).2)) ∧
    (∃ v : indicator.BOLL,
       alookup (set.GetBOLL iw bw1).2.BOLL iw = some v ∧
       v.id ∈ (set.GetBOLL iw bw1).2.binds ∧
       (set.GetBOLL iw bw1).2.GetBOLL iw bw2 = (some v, (set.GetBOLL iw bw1).2)) := by
  obtain ⟨hS, hE, hB⟩ := hinv
  refine ⟨?_, ?_, ?_⟩
  · rcases hv : alookup set.SMA iw with _ | v
    · rw [getSMA_miss set iw hv]
      refine ⟨⟨set.nextId, iw⟩, alookup_ainsert_self _ _ _, by simp, ?_⟩
      exact getSMA_hit _ _ _ (alookup_ainsert_self _ _ _)
    · rw [getSMA_hit set iw v hv]
      exact ⟨v, hv, hS _ (alookup_mem _ _ _ hv), getSMA_hit set iw v hv⟩
  · rcases hv : alookup set.EWMA iw with _ | v
    · rw [getEWMA_miss set iw hv]
      refine ⟨⟨set.nextId, iw⟩, alookup_ainsert_self _ _ _, by simp, ?_⟩
      exact getEWMA_hit _ _ _ (alookup_ainsert_self _ _ _)
    · rw [getEWMA_hit set iw v hv]
      exact ⟨v, hv, hE _ (alookup_mem _ _ _ hv), getEWMA_hit set iw v hv⟩
  · rcases hv : alookup set.BOLL iw with _ | v
    · rw [getBOLL_miss set iw bw1 hv]
      refine ⟨⟨set.nextId, iw, bw1⟩, alookup_ainsert_self _ _ _, by simp, ?_⟩
      exact getBOLL_hit _ _ _ _ (alookup_ainsert_self _ _ _)
    · rw [getBOLL_hit set iw bw1 v hv]
      exact ⟨v, hv, hB _ (alookup_mem _ _ _ hv), getBOLL_hit set iw bw2 v hv⟩

/-- Witness for C10: fresh registry over {1m}, key (1m, 14) (a miss on the
first call), BOLL multipliers 3 then 5. -/
theorem get_then_get_returns_map_resident_witness :
    BoundInv (NewStandardIndicatorSet "BTCUSDT" ["1m"] { Symbol := "BTCUSDT" }) ∧
    (∃ v : indicator.SMA,
       alookup ((NewStandardIndicatorSet "BTCUSDT" ["1m"]
           { Symbol := "BTCUSDT" }).GetSMA ⟨"1m", 14⟩).2.SMA ⟨"1m", 14⟩ = some v ∧
       v.id ∈ ((NewStandardIndicatorSet "BTCUSDT" ["1m"]
           { Symbol := "BTCUSDT" }).GetSMA ⟨"1m", 14⟩).2.binds ∧
       ((NewStandardIndicatorSet "BTCUSDT" ["1m"]
           { Symbol := "BTCUSDT" }).GetSMA ⟨"1m", 14⟩).2.GetSMA ⟨"1m", 14⟩ =
         (some v, ((NewStandardIndicatorSet "BTCUSDT" ["1m"]
           { Symbol := "BTCUSDT" }).GetSMA ⟨"1m", 14⟩).2)) :=
  ⟨by unfold BoundInv; decide,
   (get_then_get_returns_map_resident
     (NewStandardIndicatorSet "BTCUSDT" ["1m"] { Symbol := "BTCUSDT" })
     ⟨"1m", 14⟩ 3 5 (by unfold BoundInv; decide)).1⟩
